import Mathlib

/-!
Shallow embedding of `anompy/detector/changefinder/changefinder_1d.py`
(classes `SDAR_1D` and `ChangeFinder`), together with theorems checking the
specification's claims against it.

Numbers are modelled by real numbers.  The two AR-coefficient solvers
(`aryule_levinson`, `arburg` from `anompy/detector/changefinder/utils.py`)
are external primitives for this repository; every definition and theorem
that needs them is parametrised by two solver functions `yS` (Yule-Walker)
and `bS` (Burg).  Windows are lists, oldest element first, exactly as the
numpy arrays in the source (`np.append` appends at the end, `np.delete(w, 0)`
drops the head).
-/

/-- Dot product of two lists, as `np.dot` on equal-length 1-d arrays. -/
def dot (a b : List ℝ) : ℝ := (List.zipWith (fun u v => u * v) a b).sum

/-- State of the `SDAR_1D` class: discounting parameter `r`, AR order `k`,
the `yule` flag, running mean `mu`, running variance `sigma` and the
autocovariance vector `c` (length `k+1`). -/
structure SDAR_1D where
  r : ℝ
  k : ℕ
  yule : Bool
  mu : ℝ
  sigma : ℝ
  c : List ℝ

/-- `SDAR_1D.__init__`: `mu = sigma = 0.0`, `c = np.zeros(k + 1)`. -/
def SDAR_1D.init (r : ℝ) (k : ℕ) (yule : Bool) : SDAR_1D :=
  ⟨r, k, yule, 0, 0, List.replicate (k + 1) 0⟩

/-- The `k` most recent past points, most-recent-first: `xs[::-1][:k]`. -/
def regsOf (k : ℕ) (xs : List ℝ) : List ℝ := xs.reverse.take k

/-- `self.mu = (1 - self.r) * self.mu + self.r * x`. -/
def SDAR_1D.newMu (s : SDAR_1D) (x : ℝ) : ℝ := (1 - s.r) * s.mu + s.r * x

/-- The Yule-Walker branch update of the autocovariance vector:
`c[0] = (1-r)*c[0] + r*(x-mu)*(x-mu)` and
`c[1:] = (1-r)*c[1:] + r*(x-mu)*(xs[::-1][:k] - mu)` (elementwise). -/
def updC (r x m : ℝ) : List ℝ → List ℝ → List ℝ
  | [], _ => []
  | c0 :: ct, regs =>
      ((1 - r) * c0 + r * (x - m) * (x - m)) ::
        List.zipWith (fun cj g => (1 - r) * cj + r * (x - m) * (g - m)) ct regs

/-- The autocovariance vector after `SDAR_1D.update`: mutated in the
Yule-Walker branch, untouched in the Burg branch. -/
def SDAR_1D.newC (s : SDAR_1D) (x : ℝ) (xs : List ℝ) : List ℝ :=
  if s.yule then updC s.r x (s.newMu x) s.c (regsOf s.k xs) else s.c

/-- The AR coefficients `a` chosen in `SDAR_1D.update`:
`aryule_levinson(self.c, self.k)` in Yule-Walker mode,
`arburg(np.append(x, xs[::-1][:self.k]), self.k)` in Burg mode. -/
def SDAR_1D.coeffs (yS bS : List ℝ → ℕ → List ℝ) (s : SDAR_1D) (x : ℝ)
    (xs : List ℝ) : List ℝ :=
  if s.yule then yS (s.newC x xs) s.k else bS (x :: regsOf s.k xs) s.k

/-- `x_hat = np.dot(a, (xs[::-1][:self.k] - self.mu)) + self.mu`. -/
def SDAR_1D.xhat (yS bS : List ℝ → ℕ → List ℝ) (s : SDAR_1D) (x : ℝ)
    (xs : List ℝ) : ℝ :=
  dot (s.coeffs yS bS x xs) ((regsOf s.k xs).map (fun v => v - s.newMu x)) +
    s.newMu x

/-- `self.sigma = (1 - self.r) * self.sigma + self.r * (x - x_hat) ** 2`. -/
def SDAR_1D.newSigma (yS bS : List ℝ → ℕ → List ℝ) (s : SDAR_1D) (x : ℝ)
    (xs : List ℝ) : ℝ :=
  (1 - s.r) * s.sigma + s.r * (x - s.xhat yS bS x xs) ^ 2

/-- The value returned by `SDAR_1D.update`: `0.0` when `self.sigma == 0.0`,
otherwise `np.exp(-0.5 * (x - x_hat) ** 2 / self.sigma)` divided by
`(2 * np.pi) ** 0.5 * self.sigma ** 0.5`. -/
noncomputable def SDAR_1D.pdf (x xh sig : ℝ) : ℝ :=
  if sig = 0 then 0
  else Real.exp (-(1 / 2) * (x - xh) ^ 2 / sig) /
    (Real.sqrt (2 * Real.pi) * Real.sqrt sig)

/-- The `SDAR_1D` state after a successful `update`. -/
noncomputable def SDAR_1D.updated (yS bS : List ℝ → ℕ → List ℝ) (s : SDAR_1D)
    (x : ℝ) (xs : List ℝ) : SDAR_1D :=
  ⟨s.r, s.k, s.yule, s.newMu x, s.newSigma yS bS x xs, s.newC x xs⟩

/-- `SDAR_1D.update(x, xs)`.  The leading `assert xs.size >= self.k` is
modelled by returning `none`; on success the new state and the returned PDF
value are produced. -/
noncomputable def SDAR_1D.update (yS bS : List ℝ → ℕ → List ℝ) (s : SDAR_1D)
    (x : ℝ) (xs : List ℝ) : Option (SDAR_1D × ℝ) :=
  if xs.length < s.k then none
  else some (s.updated yS bS x xs,
    SDAR_1D.pdf x (s.xhat yS bS x xs) (s.newSigma yS bS x xs))

/-- A sequence of `SDAR_1D.update` calls, each with its own regressor list. -/
noncomputable def SDAR_1D.run (yS bS : List ℝ → ℕ → List ℝ) :
    SDAR_1D → List (ℝ × List ℝ) → Option SDAR_1D
  | s, [] => some s
  | s, (x, xs) :: rest =>
      match s.update yS bS x xs with
      | none => none
      | some r1 => SDAR_1D.run yS bS r1.1 rest

/-- `ChangeFinder.__logloss`: `0.0` if `p == 0.0`, else `-np.log(p)`. -/
noncomputable def logLoss (p : ℝ) : ℝ := if p = 0 then 0 else -Real.log p

/-- `ChangeFinder.__hellinger`: `1` if `sigma1 + sigma2 == 0`, else
`1 - sigma1 ** 0.25 * sigma2 ** 0.25 * np.exp(-0.25 * (mu1 - mu2) ** 2 /
(sigma1 + sigma2)) / (((sigma1 + sigma2) / 2) ** 0.5)`. -/
noncomputable def hellinger (mu1 sigma1 mu2 sigma2 : ℝ) : ℝ :=
  if sigma1 + sigma2 = 0 then 1
  else 1 - sigma1 ^ ((1 : ℝ) / 4) * sigma2 ^ ((1 : ℝ) / 4) *
    Real.exp (-(1 / 4) * (mu1 - mu2) ^ 2 / (sigma1 + sigma2)) /
    Real.sqrt ((sigma1 + sigma2) / 2)

/-- State of the `ChangeFinder` class.  Modelled from the spec: the two
threshold fields are stored by the `BaseDetector` base class
(`anompy/detector/base.py`, not under `src/`); per the spec they are fixed
at construction, with default `0`. -/
structure ChangeFinder where
  r : ℝ
  k : ℕ
  T1 : ℕ
  T2 : ℕ
  logloss : Bool
  threshold_outlier : ℝ
  threshold_change : ℝ
  xs : List ℝ
  outliers : List ℝ
  sdar_outlier : SDAR_1D
  ys : List ℝ
  changes : List ℝ
  sdar_change : SDAR_1D

/-- `ChangeFinder.__init__` (the `assert k > 0` precondition is a
construction-time check; the stored state is as below): zero-filled windows
`xs = np.zeros(k)`, `outliers = np.zeros(T1)`, `ys = np.zeros(k)`,
`changes = np.zeros(T2)`, `sdar_outlier = SDAR_1D(r, k, yule)` and
`sdar_change = SDAR_1D(r / 2, k, yule)`. -/
noncomputable def ChangeFinder.init (r : ℝ) (k T1 T2 : ℕ) (yule lg : Bool)
    (th_outlier th_change : ℝ) : ChangeFinder :=
  ⟨r, k, T1, T2, lg, th_outlier, th_change,
   List.replicate k 0, List.replicate T1 0, SDAR_1D.init r k yule,
   List.replicate k 0, List.replicate T2 0, SDAR_1D.init (r / 2) k yule⟩

/-- Modelled from the spec: construction with the two threshold options left
at their default, which the spec fixes to `0`. -/
noncomputable def ChangeFinder.initDefault (r : ℝ) (k T1 T2 : ℕ)
    (yule lg : Bool) : ChangeFinder :=
  ChangeFinder.init r k T1 T2 yule lg 0 0

/-- `ChangeFinder.__append`: append `x`, then drop the oldest element when
the window exceeds `window_size`. -/
def ChangeFinder.append (w : List ℝ) (x : ℝ) (cap : ℕ) : List ℝ :=
  if cap < (w ++ [x]).length then (w ++ [x]).tail else w ++ [x]

/-- `ChangeFinder.__smooth`: `np.mean(window)`. -/
noncomputable def ChangeFinder.smooth (w : List ℝ) : ℝ :=
  w.sum / (w.length : ℝ)

/-- The dictionary returned by `ChangeFinder.detect`: each score paired with
its `score > threshold` flag. -/
structure DetectOut where
  outlier : ℝ × Prop
  change : ℝ × Prop

/-- `ChangeFinder.detect(x)`: stage 1 on the raw point, append the outlier
score and the point to their windows, smooth, stage 2 on the smoothed score,
append, smooth again, and return both scores with their threshold flags.
`none` propagates a failed regressor-length assertion of either stage. -/
noncomputable def ChangeFinder.detect (yS bS : List ℝ → ℕ → List ℝ)
    (cf : ChangeFinder) (x : ℝ) : Option (ChangeFinder × DetectOut) :=
  (cf.sdar_outlier.update yS bS x cf.xs).bind fun r1 =>
    let outlier : ℝ :=
      if cf.logloss then logLoss r1.2
      else hellinger cf.sdar_outlier.mu cf.sdar_outlier.sigma r1.1.mu
        r1.1.sigma * 100
    let outliers2 := ChangeFinder.append cf.outliers outlier cf.T1
    let xs2 := ChangeFinder.append cf.xs x cf.k
    let y := ChangeFinder.smooth outliers2
    (cf.sdar_change.update yS bS y cf.ys).bind fun r2 =>
      let change : ℝ :=
        if cf.logloss then logLoss r2.2
        else hellinger cf.sdar_change.mu cf.sdar_change.sigma r2.1.mu
          r2.1.sigma * 100
      let changes2 := ChangeFinder.append cf.changes change cf.T2
      let ys2 := ChangeFinder.append cf.ys y cf.k
      let changeS := ChangeFinder.smooth changes2
      some ({ cf with
              xs := xs2
              outliers := outliers2
              sdar_outlier := r1.1
              ys := ys2
              changes := changes2
              sdar_change := r2.1 },
            ⟨(outlier, outlier > cf.threshold_outlier),
             (changeS, changeS > cf.threshold_change)⟩)

/-- A sequence of `ChangeFinder.detect` calls. -/
noncomputable def ChangeFinder.run (yS bS : List ℝ → ℕ → List ℝ) :
    ChangeFinder → List ℝ → Option ChangeFinder
  | cf, [] => some cf
  | cf, x :: rest =>
      match cf.detect yS bS x with
      | none => none
      | some st => ChangeFinder.run yS bS st.1 rest

/-- A trivial solver honouring the length contract of the spec (a
coefficient vector of length `k`); used to instantiate solver-parametric
theorems on concrete inputs. -/
def zeroSolver (_c : List ℝ) (k : ℕ) : List ℝ := List.replicate k 0

/-- Modelled from the spec: the Levinson-Durbin recursion implemented by
`aryule_levinson` in `anompy/detector/changefinder/utils.py` (not under
`src/`).  Order `m+1` reflection coefficient
`kap = (c[m+1] - sum_i a_i * c[m+1-i]) / E_m`, coefficient update
`a_i - kap * a_{m+1-i}` extended with `kap`, and prediction-error update
`E_{m+1} = (1 - kap^2) * E_m`, starting from `E_0 = c[0]`. -/
noncomputable def levinsonRec (c : List ℝ) : ℕ → (List ℝ × ℝ)
  | 0 => ([], c.getD 0 0)
  | m + 1 =>
      let prev := levinsonRec c m
      let kap := (c.getD (m + 1) 0 - dot prev.1 (((c.drop 1).take m).reverse)) /
        prev.2
      (List.zipWith (fun ai aj => ai - kap * aj) prev.1 prev.1.reverse ++ [kap],
       (1 - kap ^ 2) * prev.2)

/-- Modelled from the spec: `aryule_levinson(c, k)` returns the order-`k`
AR coefficients of the Levinson-Durbin recursion on `c`. -/
noncomputable def aryule_levinson (c : List ℝ) (k : ℕ) : List ℝ :=
  (levinsonRec c k).1

/-- `getD` of a `zipWith`, within the common length. -/
theorem getD_zipWith (f : ℝ → ℝ → ℝ) :
    ∀ (l1 l2 : List ℝ) (i : ℕ), i < l1.length → i < l2.length →
      (List.zipWith f l1 l2).getD i 0 = f (l1.getD i 0) (l2.getD i 0)
  | [], _, i, h1, _ => absurd h1 (by simp)
  | _ :: _, [], i, _, h2 => absurd h2 (by simp)
  | a :: t1, b :: t2, 0, _, _ => rfl
  | a :: t1, b :: t2, i + 1, h1, h2 => by
      simpa using getD_zipWith f t1 t2 i (by simpa using h1) (by simpa using h2)

/-- `getD` below the cut commutes with `take`. -/
theorem getD_take (l : List ℝ) (k i : ℕ) (h : i < k) :
    (l.take k).getD i 0 = l.getD i 0 := by
  simp [List.getD_eq_getElem?_getD, List.getElem?_take_of_lt h]

/-- A successful `SDAR_1D.update` keeps `r` and performs the discounted
variance update. -/
theorem update_r_sigma (yS bS : List ℝ → ℕ → List ℝ) (s : SDAR_1D) (x : ℝ)
    (xs : List ℝ) (s' : SDAR_1D) (p : ℝ)
    (h : s.update yS bS x xs = some (s', p)) :
    s'.r = s.r ∧
      s'.sigma = (1 - s.r) * s.sigma + s.r * (x - s.xhat yS bS x xs) ^ 2 := by
  by_cases hlt : xs.length < s.k
  · rw [SDAR_1D.update, if_pos hlt] at h
    cases h
  · rw [SDAR_1D.update, if_neg hlt] at h
    simp only [Option.some.injEq, Prod.mk.injEq] at h
    obtain ⟨hs, _⟩ := h
    subst hs
    exact ⟨rfl, rfl⟩

/-- Nonnegativity of `sigma` is preserved along any run of updates. -/
theorem run_sigma_nonneg (yS bS : List ℝ → ℕ → List ℝ) :
    ∀ (l : List (ℝ × List ℝ)) (s s' : SDAR_1D), 0 < s.r → s.r ≤ 1 →
      0 ≤ s.sigma → SDAR_1D.run yS bS s l = some s' → 0 ≤ s'.sigma
  | [], s, s', _, _, hs, h => by
      simp only [SDAR_1D.run, Option.some.injEq] at h
      exact h ▸ hs
  | (x, xs) :: rest, s, s', h0, h1, hs, h => by
      rw [SDAR_1D.run] at h
      cases hu : s.update yS bS x xs with
      | none => rw [hu] at h; cases h
      | some r1 =>
          rw [hu] at h
          obtain ⟨hr, hsig⟩ :=
            update_r_sigma yS bS s x xs r1.1 r1.2 (by rw [hu])
          refine run_sigma_nonneg yS bS rest r1.1 s' (hr ▸ h0) (hr ▸ h1) ?_ h
          rw [hsig]
          nlinarith [sq_nonneg (x - s.xhat yS bS x xs)]

/-- Claim C6: calling `SDAR_1D.update` with fewer than `k` regressors fails
(the `assert xs.size >= self.k` in `update` itself), instead of returning a
PDF value. -/
theorem claim_C6 (yS bS : List ℝ → ℕ → List ℝ) (s : SDAR_1D) (x : ℝ)
    (xs : List ℝ) (h : xs.length < s.k) :
    s.update yS bS x xs = none := by
  rw [SDAR_1D.update, if_pos h]

theorem claim_C6_witness :
    ([] : List ℝ).length < (⟨1/2, 1, true, 0, 0, [0, 0]⟩ : SDAR_1D).k ∧
    SDAR_1D.update zeroSolver zeroSolver ⟨1/2, 1, true, 0, 0, [0, 0]⟩ 0 [] =
      none :=
  ⟨by simp, claim_C6 zeroSolver zeroSolver _ 0 [] (by simp)⟩

/-- Claim C9: in Burg mode a successful `SDAR_1D.update` leaves the
autocovariance vector `c` unchanged, and the AR coefficients are computed by
the Burg solver from `x` followed by the `k` most recent regressors in
most-recent-first order. -/
theorem claim_C9 (yS bS : List ℝ → ℕ → List ℝ) (s : SDAR_1D) (x : ℝ)
    (xs : List ℝ) (s' : SDAR_1D) (p : ℝ) (hyl : s.yule = false)
    (h : s.update yS bS x xs = some (s', p)) :
    s'.c = s.c ∧
      s.coeffs yS bS x xs = bS (x :: (xs.reverse).take s.k) s.k := by
  by_cases hlt : xs.length < s.k
  · rw [SDAR_1D.update, if_pos hlt] at h
    cases h
  · rw [SDAR_1D.update, if_neg hlt] at h
    simp only [Option.some.injEq, Prod.mk.injEq] at h
    obtain ⟨hs, _⟩ := h
    subst hs
    constructor
    · simp [SDAR_1D.updated, SDAR_1D.newC, hyl]
    · simp [SDAR_1D.coeffs, hyl, regsOf]

theorem claim_C9_witness :
    (⟨1/2, 1, false, 0, 0, [0, 0]⟩ : SDAR_1D).yule = false ∧
    SDAR_1D.update zeroSolver zeroSolver ⟨1/2, 1, false, 0, 0, [0, 0]⟩ 0 [0] =
      some (⟨1/2, 1, false, 0, 0, [0, 0]⟩, 0) ∧
    ([(0 : ℝ), 0] = [(0 : ℝ), 0] ∧
      SDAR_1D.coeffs zeroSolver zeroSolver ⟨1/2, 1, false, 0, 0, [0, 0]⟩ 0 [0] =
        zeroSolver ((0 : ℝ) :: (([(0 : ℝ)]).reverse.take 1)) 1) := by
  have hu : SDAR_1D.update zeroSolver zeroSolver
      ⟨1/2, 1, false, 0, 0, [0, 0]⟩ 0 [0] =
      some (⟨1/2, 1, false, 0, 0, [0, 0]⟩, 0) := by
    simp [SDAR_1D.update, SDAR_1D.updated, SDAR_1D.newMu, SDAR_1D.newSigma,
      SDAR_1D.newC, SDAR_1D.coeffs, SDAR_1D.xhat, SDAR_1D.pdf, updC, regsOf,
      dot, zeroSolver]
  exact ⟨rfl, hu,
    claim_C9 zeroSolver zeroSolver ⟨1/2, 1, false, 0, 0, [0, 0]⟩ 0 [0]
      ⟨1/2, 1, false, 0, 0, [0, 0]⟩ 0 rfl hu⟩

/-- Claim C8: `sigma >= 0` is an invariant.  From the initial `sigma = 0`,
for every discount `r` in `(0,1]` and every sequence of updates, `sigma`
stays nonnegative, because each successful update replaces it by the convex
combination `(1-r)*sigma + r*(x - x_hat)^2`. -/
theorem claim_C8 (yS bS : List ℝ → ℕ → List ℝ) (r : ℝ) (k : ℕ) (yl : Bool)
    (l : List (ℝ × List ℝ)) (s' : SDAR_1D) (hr0 : 0 < r) (hr1 : r ≤ 1)
    (h : SDAR_1D.run yS bS (SDAR_1D.init r k yl) l = some s') :
    0 ≤ s'.sigma ∧
    ∀ (t : SDAR_1D) (x : ℝ) (xs : List ℝ) (t' : SDAR_1D) (p : ℝ), t.r = r →
      0 ≤ t.sigma → t.update yS bS x xs = some (t', p) →
      t'.sigma = (1 - r) * t.sigma + r * (x - t.xhat yS bS x xs) ^ 2 ∧
        0 ≤ t'.sigma := by
  constructor
  · exact run_sigma_nonneg yS bS l _ s' hr0 hr1 le_rfl h
  · intro t x xs t' p htr hts hu
    obtain ⟨_, hsig⟩ := update_r_sigma yS bS t x xs t' p hu
    rw [htr] at hsig
    refine ⟨hsig, ?_⟩
    rw [hsig]
    nlinarith [sq_nonneg (x - t.xhat yS bS x xs)]

theorem claim_C8_witness :
    ((0:ℝ) < 1/2) ∧ ((1/2:ℝ) ≤ 1) ∧
    SDAR_1D.run zeroSolver zeroSolver (SDAR_1D.init (1/2) 1 true) [] =
      some (SDAR_1D.init (1/2) 1 true) ∧
    0 ≤ (SDAR_1D.init (1/2) 1 true).sigma :=
  ⟨by norm_num, by norm_num, rfl,
    (claim_C8 zeroSolver zeroSolver (1/2) 1 true [] (SDAR_1D.init (1/2) 1 true)
      (by norm_num) (by norm_num) rfl).1⟩

/-- Claim C3: in Yule-Walker mode a successful `SDAR_1D.update` first sets
`mu` to `(1-r)*mu + r*x`, then updates the autocovariances with the new
mean: `c[0]` to `(1-r)*c[0] + r*(x-mu)^2` and `c[j]` (for `j = 1..k`) to
`(1-r)*c[j] + r*(x-mu)*(regressor_at_lag_j - mu)`, the regressors taken
most-recent-first, and only then solves for the AR coefficients from the
updated `c`. -/
theorem claim_C3 (yS bS : List ℝ → ℕ → List ℝ) (s : SDAR_1D) (x : ℝ)
    (xs : List ℝ) (s' : SDAR_1D) (p : ℝ) (hyl : s.yule = true)
    (hk : s.k ≤ xs.length) (hc : s.c.length = s.k + 1)
    (h : s.update yS bS x xs = some (s', p)) :
    s'.mu = (1 - s.r) * s.mu + s.r * x ∧
    s'.c.getD 0 0 = (1 - s.r) * s.c.getD 0 0 + s.r * (x - s'.mu) * (x - s'.mu) ∧
    (∀ j, 1 ≤ j → j ≤ s.k →
      s'.c.getD j 0 = (1 - s.r) * s.c.getD j 0 +
        s.r * (x - s'.mu) * (xs.reverse.getD (j - 1) 0 - s'.mu)) ∧
    s.coeffs yS bS x xs = yS s'.c s.k := by
  have hlt : ¬ xs.length < s.k := not_lt.2 hk
  rw [SDAR_1D.update, if_neg hlt] at h
  simp only [Option.some.injEq, Prod.mk.injEq] at h
  obtain ⟨hs, _⟩ := h
  subst hs
  have hmu : (s.updated yS bS x xs).mu = (1 - s.r) * s.mu + s.r * x := rfl
  have hregs : (regsOf s.k xs).length = s.k := by
    simp [regsOf, List.length_take, List.length_reverse, min_eq_left hk]
  refine ⟨hmu, ?_, ?_, ?_⟩
  · cases hsc : s.c with
    | nil => rw [hsc] at hc; simp at hc
    | cons c0 ct =>
        show (s.newC x xs).getD 0 0 = _
        rw [SDAR_1D.newC, if_pos hyl, hsc]
        simp [updC, SDAR_1D.newMu, hmu]
  · intro j h1 h2
    obtain ⟨i, rfl⟩ : ∃ i, j = i + 1 := ⟨j - 1, (Nat.succ_pred_eq_of_pos h1).symm⟩
    cases hsc : s.c with
    | nil => rw [hsc] at hc; simp at hc
    | cons c0 ct =>
        have hct : ct.length = s.k := by
          rw [hsc] at hc; simpa using hc
        have hik : i < s.k := by omega
        show (s.newC x xs).getD (i + 1) 0 = _
        rw [SDAR_1D.newC, if_pos hyl, hsc]
        simp only [updC, List.getD_cons_succ]
        rw [getD_zipWith _ ct (regsOf s.k xs) i (by omega) (by omega)]
        have hrg : (regsOf s.k xs).getD i 0 = xs.reverse.getD i 0 :=
          getD_take xs.reverse s.k i hik
        rw [hrg]
        simp [SDAR_1D.newMu, SDAR_1D.updated, Nat.add_sub_cancel]
  · show s.coeffs yS bS x xs = yS (s.newC x xs) s.k
    rw [SDAR_1D.coeffs, if_pos hyl]

theorem claim_C3_witness :
    (⟨1/2, 1, true, 0, 0, [0, 0]⟩ : SDAR_1D).yule = true ∧
    (⟨1/2, 1, true, 0, 0, [0, 0]⟩ : SDAR_1D).k ≤ ([(0:ℝ)]).length ∧
    (⟨1/2, 1, true, 0, 0, [(0:ℝ), 0]⟩ : SDAR_1D).c.length =
      (⟨1/2, 1, true, 0, 0, [(0:ℝ), 0]⟩ : SDAR_1D).k + 1 ∧
    SDAR_1D.update zeroSolver zeroSolver ⟨1/2, 1, true, 0, 0, [0, 0]⟩ 0 [0] =
      some (⟨1/2, 1, true, 0, 0, [0, 0]⟩, 0) ∧
    ((0:ℝ) = (1 - 1/2) * 0 + 1/2 * 0 ∧
     ([(0:ℝ), 0]).getD 0 0 =
       (1 - 1/2) * ([(0:ℝ), 0]).getD 0 0 + 1/2 * ((0:ℝ) - 0) * ((0:ℝ) - 0) ∧
     (([(0:ℝ), 0]).getD 1 0 = (1 - 1/2) * ([(0:ℝ), 0]).getD 1 0 +
       1/2 * ((0:ℝ) - 0) * (([(0:ℝ)]).reverse.getD (1 - 1) 0 - 0)) ∧
     SDAR_1D.coeffs zeroSolver zeroSolver ⟨1/2, 1, true, 0, 0, [0, 0]⟩ 0 [0] =
       zeroSolver [(0:ℝ), 0] 1) := by
  have hu : SDAR_1D.update zeroSolver zeroSolver
      ⟨1/2, 1, true, 0, 0, [0, 0]⟩ 0 [0] =
      some (⟨1/2, 1, true, 0, 0, [0, 0]⟩, 0) := by
    simp [SDAR_1D.update, SDAR_1D.updated, SDAR_1D.newMu, SDAR_1D.newSigma,
      SDAR_1D.newC, SDAR_1D.coeffs, SDAR_1D.xhat, SDAR_1D.pdf, updC, regsOf,
      dot, zeroSolver]
  have hmain := claim_C3 zeroSolver zeroSolver ⟨1/2, 1, true, 0, 0, [0, 0]⟩ 0 [0]
      ⟨1/2, 1, true, 0, 0, [0, 0]⟩ 0 rfl (by simp) rfl hu
  exact ⟨rfl, by simp, rfl, hu,
    hmain.1, hmain.2.1, hmain.2.2.1 1 le_rfl le_rfl, hmain.2.2.2⟩

/-- Dot product against mean-subtracted regressors as an indexed sum. -/
theorem dot_map_sub_eq_sum : ∀ (n : ℕ) (a g : List ℝ) (m : ℝ),
    a.length = n → g.length = n →
    dot a (g.map (fun v => v - m)) =
      ∑ i ∈ Finset.range n, a.getD i 0 * (g.getD i 0 - m)
  | 0, a, g, m, ha, hg => by
      rw [List.length_eq_zero] at ha hg
      subst ha; subst hg; simp [dot]
  | n + 1, a, g, m, ha, hg => by
      cases a with
      | nil => simp at ha
      | cons a0 ta =>
          cases g with
          | nil => simp at hg
          | cons g0 tg =>
              have ih := dot_map_sub_eq_sum n ta tg m (by simpa using ha)
                (by simpa using hg)
              rw [Finset.sum_range_succ']
              simp only [List.getD_cons_succ, List.getD_cons_zero]
              rw [← ih]
              simp only [dot, List.map_cons, List.zipWith_cons_cons,
                List.sum_cons]
              ring

/-- Claim C2: with at least `k` regressors, `SDAR_1D.update` returns `0`
when the post-update variance is `0` and otherwise the univariate normal
density `exp(-(x - x_hat)^2 / (2*sigma)) / sqrt(2*pi*sigma)`, where the
prediction is `x_hat = mu + sum_{j=1..k} a[j]*(regressor_at_lag_j - mu)`
with `mu` the post-update mean and `a` the coefficients returned by the
selected solver (assumed, per the solver contract, to return `k`
coefficients). -/
theorem claim_C2 (yS bS : List ℝ → ℕ → List ℝ) (s : SDAR_1D) (x : ℝ)
    (xs : List ℝ) (s' : SDAR_1D) (p : ℝ)
    (hy : ∀ c n, (yS c n).length = n) (hb : ∀ l n, (bS l n).length = n)
    (hk : s.k ≤ xs.length)
    (h : s.update yS bS x xs = some (s', p)) :
    p = (if s'.sigma = 0 then 0
         else Real.exp (-((x - s.xhat yS bS x xs) ^ 2) / (2 * s'.sigma)) /
           Real.sqrt (2 * Real.pi * s'.sigma)) ∧
    s.xhat yS bS x xs = s'.mu +
      ∑ j ∈ Finset.Icc 1 s.k, (s.coeffs yS bS x xs).getD (j - 1) 0 *
        (xs.reverse.getD (j - 1) 0 - s'.mu) := by
  have hlt : ¬ xs.length < s.k := not_lt.2 hk
  rw [SDAR_1D.update, if_neg hlt] at h
  simp only [Option.some.injEq, Prod.mk.injEq] at h
  obtain ⟨hs, hp⟩ := h
  subst hs
  constructor
  · rw [← hp]
    show SDAR_1D.pdf x (s.xhat yS bS x xs) (s.newSigma yS bS x xs) = _
    have hsig : (s.updated yS bS x xs).sigma = s.newSigma yS bS x xs := rfl
    rw [hsig]
    by_cases h0 : s.newSigma yS bS x xs = 0
    · rw [SDAR_1D.pdf, if_pos h0, if_pos h0]
    · rw [SDAR_1D.pdf, if_neg h0, if_neg h0]
      have he : -(1/2 : ℝ) * (x - s.xhat yS bS x xs) ^ 2 /
          s.newSigma yS bS x xs =
          -((x - s.xhat yS bS x xs) ^ 2) / (2 * s.newSigma yS bS x xs) := by
        ring
      rw [he, Real.sqrt_mul (by positivity) (s.newSigma yS bS x xs)]
  · have hmu : (s.updated yS bS x xs).mu = s.newMu x := rfl
    rw [hmu]
    have hal : (s.coeffs yS bS x xs).length = s.k := by
      cases hyl : s.yule <;> simp [SDAR_1D.coeffs, hyl, hy, hb]
    have hregs : (regsOf s.k xs).length = s.k := by
      simp [regsOf, List.length_take, List.length_reverse, min_eq_left hk]
    rw [SDAR_1D.xhat, dot_map_sub_eq_sum s.k _ _ _ hal hregs]
    have hsum : ∑ i ∈ Finset.range s.k,
        (s.coeffs yS bS x xs).getD i 0 *
          ((regsOf s.k xs).getD i 0 - s.newMu x) =
        ∑ i ∈ Finset.range s.k,
        (s.coeffs yS bS x xs).getD i 0 *
          (xs.reverse.getD i 0 - s.newMu x) := by
      refine Finset.sum_congr rfl ?_
      intro i hi
      have : (regsOf s.k xs).getD i 0 = xs.reverse.getD i 0 :=
        getD_take xs.reverse s.k i (Finset.mem_range.1 hi)
      rw [this]
    have hIcc : ∑ j ∈ Finset.Icc 1 s.k,
        (s.coeffs yS bS x xs).getD (j - 1) 0 *
          (xs.reverse.getD (j - 1) 0 - s.newMu x) =
        ∑ i ∈ Finset.range s.k,
        (s.coeffs yS bS x xs).getD i 0 *
          (xs.reverse.getD i 0 - s.newMu x) := by
      rw [← Nat.Ico_succ_right, Finset.sum_Ico_eq_sum_range]
      simp
    rw [hsum, hIcc]
    ring

theorem claim_C2_witness :
    ((⟨1/2, 1, true, 0, 0, [0, 0]⟩ : SDAR_1D).k ≤ ([(0:ℝ)]).length) ∧
    SDAR_1D.update zeroSolver zeroSolver ⟨1/2, 1, true, 0, 0, [0, 0]⟩ 0 [0] =
      some (⟨1/2, 1, true, 0, 0, [0, 0]⟩, 0) ∧
    ((0:ℝ) = (if (0:ℝ) = 0 then 0
        else Real.exp (-(((0:ℝ) - SDAR_1D.xhat zeroSolver zeroSolver
            ⟨1/2, 1, true, 0, 0, [0, 0]⟩ 0 [0]) ^ 2) / (2 * 0)) /
          Real.sqrt (2 * Real.pi * 0)) ∧
      SDAR_1D.xhat zeroSolver zeroSolver ⟨1/2, 1, true, 0, 0, [0, 0]⟩ 0 [0] =
        0 + ∑ j ∈ Finset.Icc 1 1,
          (SDAR_1D.coeffs zeroSolver zeroSolver
            ⟨1/2, 1, true, 0, 0, [0, 0]⟩ 0 [0]).getD (j - 1) 0 *
          (([(0:ℝ)]).reverse.getD (j - 1) 0 - 0)) := by
  have hu : SDAR_1D.update zeroSolver zeroSolver
      ⟨1/2, 1, true, 0, 0, [0, 0]⟩ 0 [0] =
      some (⟨1/2, 1, true, 0, 0, [0, 0]⟩, 0) := by
    simp [SDAR_1D.update, SDAR_1D.updated, SDAR_1D.newMu, SDAR_1D.newSigma,
      SDAR_1D.newC, SDAR_1D.coeffs, SDAR_1D.xhat, SDAR_1D.pdf, updC, regsOf,
      dot, zeroSolver]
  exact ⟨by simp, hu,
    claim_C2 zeroSolver zeroSolver ⟨1/2, 1, true, 0, 0, [0, 0]⟩ 0 [0]
      ⟨1/2, 1, true, 0, 0, [0, 0]⟩ 0
      (fun c n => by simp [zeroSolver]) (fun l n => by simp [zeroSolver])
      (by simp) hu⟩

/-- Claim C5 (refuting evaluation): the PDF-zero guard of `SDAR_1D.update`
tests `sigma == 0.0` only, so a negative post-update variance is not
clamped: from the state with `sigma = -1` (and a zero-coefficient solver)
the update of `x = 0` against `xs = [0]` produces `sigma = -1/2 < 0`, the
guard does not fire, and the code goes on to take `sigma ** 0.5` of a
negative number instead of returning `0` as the spec requires. -/
theorem claim_C5 :
    ∃ s' p, SDAR_1D.update zeroSolver zeroSolver
        ⟨1/2, 1, true, 0, -1, [0, 0]⟩ 0 [0] = some (s', p) ∧
      s'.sigma = -(1/2) ∧ s'.sigma < 0 ∧ ¬ s'.sigma = 0 := by
  have hσ : (SDAR_1D.updated zeroSolver zeroSolver
      ⟨1/2, 1, true, 0, -1, [0, 0]⟩ 0 [0]).sigma = -(1/2) := by
    show SDAR_1D.newSigma zeroSolver zeroSolver
      ⟨1/2, 1, true, 0, -1, [0, 0]⟩ 0 [0] = -(1/2)
    simp [SDAR_1D.newSigma, SDAR_1D.xhat, SDAR_1D.coeffs, SDAR_1D.newC,
      SDAR_1D.newMu, updC, regsOf, dot, zeroSolver]
    norm_num
  refine ⟨SDAR_1D.updated zeroSolver zeroSolver
      ⟨1/2, 1, true, 0, -1, [0, 0]⟩ 0 [0],
    SDAR_1D.pdf 0
      (SDAR_1D.xhat zeroSolver zeroSolver ⟨1/2, 1, true, 0, -1, [0, 0]⟩ 0 [0])
      (SDAR_1D.newSigma zeroSolver zeroSolver
        ⟨1/2, 1, true, 0, -1, [0, 0]⟩ 0 [0]), ?_, hσ, ?_, ?_⟩
  · rw [SDAR_1D.update, if_neg (by simp)]
  · rw [hσ]; norm_num
  · rw [hσ]; norm_num

/-- `ChangeFinder.append` never grows a window past its capacity. -/
theorem append_length_le (w : List ℝ) (x : ℝ) (cap : ℕ)
    (h : w.length ≤ cap) : (ChangeFinder.append w x cap).length ≤ cap := by
  rw [ChangeFinder.append]
  by_cases hlt : cap < (w ++ [x]).length
  · rw [if_pos hlt]
    simpa using h
  · rw [if_neg hlt]
    simp only [List.length_append, List.length_singleton] at hlt ⊢
    omega

/-- `ChangeFinder.append` keeps a window exactly at its capacity. -/
theorem append_length_eq (w : List ℝ) (x : ℝ) (cap : ℕ)
    (h : w.length = cap) : (ChangeFinder.append w x cap).length = cap := by
  rw [ChangeFinder.append, if_pos (by simp [h])]
  simp [h]

/-- Shape of a successful `ChangeFinder.detect` step: configuration fields
are untouched and each window is replaced by an `append` into it. -/
theorem detect_shape (yS bS : List ℝ → ℕ → List ℝ) (cf : ChangeFinder)
    (x : ℝ) (st : ChangeFinder × DetectOut) (h : cf.detect yS bS x = some st) :
    st.1.k = cf.k ∧ st.1.T1 = cf.T1 ∧ st.1.T2 = cf.T2 ∧
    st.1.r = cf.r ∧ st.1.logloss = cf.logloss ∧
    st.1.threshold_outlier = cf.threshold_outlier ∧
    st.1.threshold_change = cf.threshold_change ∧
    st.1.xs = ChangeFinder.append cf.xs x cf.k ∧
    (∃ o, st.1.outliers = ChangeFinder.append cf.outliers o cf.T1) ∧
    (∃ u, st.1.ys = ChangeFinder.append cf.ys u cf.k) ∧
    (∃ v, st.1.changes = ChangeFinder.append cf.changes v cf.T2) := by
  rw [ChangeFinder.detect, Option.bind_eq_some] at h
  obtain ⟨r1, hu1, h⟩ := h
  simp only [Option.bind_eq_some] at h
  obtain ⟨r2, hu2, h⟩ := h
  simp only [Option.some.injEq] at h
  subst h
  refine ⟨rfl, rfl, rfl, rfl, rfl, rfl, rfl, rfl, ⟨_, rfl⟩, ⟨_, rfl⟩, ⟨_, rfl⟩⟩

/-- Window lengths are preserved along any run of `ChangeFinder.detect`. -/
theorem run_lengths (yS bS : List ℝ → ℕ → List ℝ) (k T1 T2 : ℕ) :
    ∀ (inputs : List ℝ) (cf cf' : ChangeFinder), cf.k = k → cf.T1 = T1 →
      cf.T2 = T2 → cf.xs.length = k → cf.outliers.length = T1 →
      cf.ys.length = k → cf.changes.length = T2 →
      ChangeFinder.run yS bS cf inputs = some cf' →
      cf'.xs.length = k ∧ cf'.outliers.length = T1 ∧ cf'.ys.length = k ∧
        cf'.changes.length = T2
  | [], cf, cf', hk, h1, h2, hx, ho, hy2, hc, h => by
      simp only [ChangeFinder.run, Option.some.injEq] at h
      subst h
      exact ⟨hx, ho, hy2, hc⟩
  | x :: rest, cf, cf', hk, h1, h2, hx, ho, hy2, hc, h => by
      rw [ChangeFinder.run] at h
      cases hd : cf.detect yS bS x with
      | none => rw [hd] at h; cases h
      | some st =>
          rw [hd] at h
          obtain ⟨sk, sT1, sT2, _, _, _, _, sxs, ⟨o, so⟩, ⟨u, su⟩, ⟨v, sv⟩⟩ :=
            detect_shape yS bS cf x st hd
          refine run_lengths yS bS k T1 T2 rest st.1 cf' (sk.trans hk)
            (sT1.trans h1) (sT2.trans h2) ?_ ?_ ?_ ?_ h
          · rw [sxs, ← hk]
            exact append_length_eq cf.xs x cf.k (by rw [hk, hx])
          · rw [so, ← h1]
            exact append_length_eq cf.outliers o cf.T1 (by rw [h1, ho])
          · rw [su, ← hk]
            exact append_length_eq cf.ys u cf.k (by rw [hk, hy2])
          · rw [sv, ← h2]
            exact append_length_eq cf.changes v cf.T2 (by rw [h2, hc])

/-- Claim C7: the four windows (`xs` of capacity `k`, `outliers` of capacity
`T1`, `ys` of capacity `k`, `changes` of capacity `T2`) never exceed their
capacity and, starting from the zero-filled construction state, sit at
exactly their capacity after every sequence of `detect` calls; eviction is
append-then-trim: the new value is always appended, and when the size
exceeds the capacity exactly the single oldest element is removed. -/
theorem claim_C7 :
    (∀ (w : List ℝ) (x : ℝ) (cap : ℕ), w.length ≤ cap →
      (ChangeFinder.append w x cap).length ≤ cap) ∧
    (∀ (w : List ℝ) (x : ℝ) (cap : ℕ), w.length < cap →
      ChangeFinder.append w x cap = w ++ [x]) ∧
    (∀ (w : List ℝ) (x : ℝ) (cap : ℕ), w ≠ [] → cap ≤ w.length →
      ChangeFinder.append w x cap = w.tail ++ [x]) ∧
    (∀ (yS bS : List ℝ → ℕ → List ℝ) (r : ℝ) (k T1 T2 : ℕ) (yl lg : Bool)
      (t1 t2 : ℝ) (inputs : List ℝ) (cf' : ChangeFinder),
      ChangeFinder.run yS bS (ChangeFinder.init r k T1 T2 yl lg t1 t2)
        inputs = some cf' →
      cf'.xs.length = k ∧ cf'.outliers.length = T1 ∧ cf'.ys.length = k ∧
        cf'.changes.length = T2) := by
  refine ⟨append_length_le, ?_, ?_, ?_⟩
  · intro w x cap h
    rw [ChangeFinder.append, if_neg (by simp; omega)]
  · intro w x cap hne h
    rw [ChangeFinder.append, if_pos (by simp; omega)]
    cases w with
    | nil => exact absurd rfl hne
    | cons a t => simp
  · intro yS bS r k T1 T2 yl lg t1 t2 inputs cf' h
    exact run_lengths yS bS k T1 T2 inputs _ cf' rfl rfl rfl (by simp
      [ChangeFinder.init]) (by simp [ChangeFinder.init])
      (by simp [ChangeFinder.init]) (by simp [ChangeFinder.init]) h

theorem claim_C7_witness :
    (ChangeFinder.append [(0:ℝ)] 1 1).length ≤ 1 ∧
    ChangeFinder.append [] (5:ℝ) 2 = ([] : List ℝ) ++ [5] ∧
    ChangeFinder.append [(3:ℝ), 4] 5 2 = ([(3:ℝ), 4]).tail ++ [5] ∧
    ((ChangeFinder.init (1/2) 1 1 1 true true 0 0).xs.length = 1 ∧
     (ChangeFinder.init (1/2) 1 1 1 true true 0 0).outliers.length = 1 ∧
     (ChangeFinder.init (1/2) 1 1 1 true true 0 0).ys.length = 1 ∧
     (ChangeFinder.init (1/2) 1 1 1 true true 0 0).changes.length = 1) :=
  ⟨claim_C7.1 [(0:ℝ)] 1 1 (by simp),
   claim_C7.2.1 [] (5:ℝ) 2 (by simp),
   claim_C7.2.2.1 [(3:ℝ), 4] 5 2 (by simp) (by simp),
   claim_C7.2.2.2 zeroSolver zeroSolver (1/2) 1 1 1 true true 0 0 []
     (ChangeFinder.init (1/2) 1 1 1 true true 0 0) rfl⟩

/-- Claim C4 counterexample: the Hellinger score also equals `1` when only
one of the variances is `0`: `hellinger 0 0 0 1 = 1` although `0 + 1 ≠ 0`,
so the score is *not* `1` exactly when `sigma1 + sigma2 == 0`. -/
theorem claim_C4_cex : hellinger 0 0 0 1 = 1 ∧ ((0:ℝ) + 1 ≠ 0) := by
  constructor
  · rw [hellinger, if_neg (by norm_num), Real.zero_rpow (by norm_num)]
    simp
  · norm_num

/-- Bounds for the subtracted term of the Hellinger score on the
`sigma1 + sigma2 ≠ 0` branch. -/
theorem hellinger_term_bounds (mu1 sigma1 mu2 sigma2 : ℝ) (h1 : 0 ≤ sigma1)
    (h2 : 0 ≤ sigma2) (hsum : 0 < sigma1 + sigma2) :
    0 ≤ sigma1 ^ ((1:ℝ)/4) * sigma2 ^ ((1:ℝ)/4) *
        Real.exp (-(1/4) * (mu1 - mu2) ^ 2 / (sigma1 + sigma2)) /
        Real.sqrt ((sigma1 + sigma2) / 2) ∧
    sigma1 ^ ((1:ℝ)/4) * sigma2 ^ ((1:ℝ)/4) *
        Real.exp (-(1/4) * (mu1 - mu2) ^ 2 / (sigma1 + sigma2)) /
        Real.sqrt ((sigma1 + sigma2) / 2) ≤ 1 ∧
    (sigma1 ^ ((1:ℝ)/4) * sigma2 ^ ((1:ℝ)/4) *
        Real.exp (-(1/4) * (mu1 - mu2) ^ 2 / (sigma1 + sigma2)) /
        Real.sqrt ((sigma1 + sigma2) / 2) = 0 ↔ sigma1 * sigma2 = 0) := by
  have hS : 0 < Real.sqrt ((sigma1 + sigma2) / 2) :=
    Real.sqrt_pos.2 (by linarith)
  have hA : 0 ≤ sigma1 ^ ((1:ℝ)/4) := Real.rpow_nonneg h1 _
  have hB : 0 ≤ sigma2 ^ ((1:ℝ)/4) := Real.rpow_nonneg h2 _
  have hE : 0 < Real.exp (-(1/4) * (mu1 - mu2) ^ 2 / (sigma1 + sigma2)) :=
    Real.exp_pos _
  refine ⟨div_nonneg (mul_nonneg (mul_nonneg hA hB) hE.le) hS.le, ?_, ?_⟩
  · rw [div_le_one hS]
    have hE1 : Real.exp (-(1/4) * (mu1 - mu2) ^ 2 / (sigma1 + sigma2)) ≤ 1 := by
      rw [Real.exp_le_one_iff,
        show -(1/4 : ℝ) * (mu1 - mu2) ^ 2 / (sigma1 + sigma2) =
          -((1/4) * (mu1 - mu2) ^ 2 / (sigma1 + sigma2)) by ring]
      have : 0 ≤ (1/4) * (mu1 - mu2) ^ 2 / (sigma1 + sigma2) := by positivity
      linarith
    have hAB : sigma1 ^ ((1:ℝ)/4) * sigma2 ^ ((1:ℝ)/4) =
        (sigma1 * sigma2) ^ ((1:ℝ)/4) := (Real.mul_rpow h1 h2).symm
    have hq : (sigma1 * sigma2) ^ ((1:ℝ)/4) =
        Real.sqrt (Real.sqrt (sigma1 * sigma2)) := by
      rw [show ((1:ℝ)/4) = (1/2) * (1/2) by norm_num,
        Real.rpow_mul (mul_nonneg h1 h2), ← Real.sqrt_eq_rpow,
        ← Real.sqrt_eq_rpow]
    have hAM : Real.sqrt (sigma1 * sigma2) ≤ (sigma1 + sigma2) / 2 := by
      rw [Real.sqrt_mul h1]
      nlinarith [sq_nonneg (Real.sqrt sigma1 - Real.sqrt sigma2),
        Real.sq_sqrt h1, Real.sq_sqrt h2, Real.sqrt_nonneg sigma1,
        Real.sqrt_nonneg sigma2]
    calc sigma1 ^ ((1:ℝ)/4) * sigma2 ^ ((1:ℝ)/4) *
          Real.exp (-(1/4) * (mu1 - mu2) ^ 2 / (sigma1 + sigma2))
        ≤ sigma1 ^ ((1:ℝ)/4) * sigma2 ^ ((1:ℝ)/4) * 1 :=
          mul_le_mul_of_nonneg_left hE1 (mul_nonneg hA hB)
      _ = (sigma1 * sigma2) ^ ((1:ℝ)/4) := by rw [mul_one, hAB]
      _ = Real.sqrt (Real.sqrt (sigma1 * sigma2)) := hq
      _ ≤ Real.sqrt ((sigma1 + sigma2) / 2) := Real.sqrt_le_sqrt hAM
  · rw [div_eq_zero_iff]
    constructor
    · rintro (h | h)
      · rcases mul_eq_zero.1 h with h' | h'
        · rcases mul_eq_zero.1 h' with h'' | h''
          · exact mul_eq_zero.2 (Or.inl
              ((Real.rpow_eq_zero_iff_of_nonneg h1).1 h'').1)
          · exact mul_eq_zero.2 (Or.inr
              ((Real.rpow_eq_zero_iff_of_nonneg h2).1 h'').1)
        · exact absurd h' (Real.exp_ne_zero _)
      · exact absurd h (ne_of_gt hS)
    · intro hprod
      rcases mul_eq_zero.1 hprod with h' | h'
      · rw [h', Real.zero_rpow (by norm_num)]
        simp
      · rw [h', Real.zero_rpow (by norm_num)]
        simp

/-- Claim C4 (amended): the Hellinger score is symmetric under swapping the
two models; for nonnegative variances it lies in `[0, 1]` before the `×100`
scaling; and it equals `1` exactly when `sigma1 * sigma2 = 0` (at least one
variance is zero) — in particular when `sigma1 + sigma2 = 0`, but not only
then. -/
theorem claim_C4 (mu1 sigma1 mu2 sigma2 : ℝ) :
    hellinger mu1 sigma1 mu2 sigma2 = hellinger mu2 sigma2 mu1 sigma1 ∧
    (0 ≤ sigma1 → 0 ≤ sigma2 →
      0 ≤ hellinger mu1 sigma1 mu2 sigma2 ∧
      hellinger mu1 sigma1 mu2 sigma2 ≤ 1 ∧
      (hellinger mu1 sigma1 mu2 sigma2 = 1 ↔ sigma1 * sigma2 = 0)) := by
  constructor
  · by_cases h0 : sigma1 + sigma2 = 0
    · rw [hellinger, hellinger, if_pos h0, if_pos (by rw [add_comm]; exact h0)]
    · rw [hellinger, hellinger, if_neg h0,
        if_neg (by rw [add_comm]; exact h0)]
      rw [show (mu2 - mu1) ^ 2 = (mu1 - mu2) ^ 2 by ring,
        add_comm sigma2 sigma1]
      ring
  · intro h1 h2
    by_cases h0 : sigma1 + sigma2 = 0
    · have hs1 : sigma1 = 0 := by linarith
      rw [hellinger, if_pos h0]
      refine ⟨by norm_num, le_refl 1, ?_⟩
      simp [hs1]
    · have hsum : 0 < sigma1 + sigma2 := lt_of_le_of_ne (by linarith) (Ne.symm h0)
      obtain ⟨ht0, ht1, htz⟩ :=
        hellinger_term_bounds mu1 sigma1 mu2 sigma2 h1 h2 hsum
      rw [hellinger, if_neg h0]
      refine ⟨by linarith, by linarith, ?_⟩
      rw [sub_eq_self]
      exact htz

theorem claim_C4_witness :
    hellinger 3 1 4 2 = hellinger 4 2 3 1 ∧
    ((0:ℝ) ≤ 1) ∧ ((0:ℝ) ≤ 2) ∧
    0 ≤ hellinger 3 1 4 2 ∧ hellinger 3 1 4 2 ≤ 1 ∧
    (hellinger 3 1 4 2 = 1 ↔ (1:ℝ) * 2 = 0) := by
  obtain ⟨hsymm, hrest⟩ := claim_C4 3 1 4 2
  obtain ⟨hb0, hb1, hiff⟩ := hrest (by norm_num) (by norm_num)
  exact ⟨hsymm, by norm_num, by norm_num, hb0, hb1, hiff⟩

/-- `np.dot` of any coefficient vector against the single regressor `0`. -/
theorem dot_singleton_zero (a : List ℝ) : dot a [0] = 0 := by
  cases a with
  | nil => rfl
  | cons a0 t => simp [dot]


/-- Updating a freshly initialised order-1 SDAR model with the zero point
against the zero regressor window leaves it in its initial state and
returns PDF `0`, for every solver pair and either estimation mode. -/
theorem update_init_zero (yS bS : List ℝ → ℕ → List ℝ) (r : ℝ) (yl : Bool) :
    SDAR_1D.update yS bS ⟨r, 1, yl, 0, 0, [0, 0]⟩ 0 [0] =
      some (⟨r, 1, yl, 0, 0, [0, 0]⟩, 0) := by
  have hx : SDAR_1D.xhat yS bS ⟨r, 1, yl, 0, 0, [0, 0]⟩ 0 [0] = 0 := by
    rw [SDAR_1D.xhat]
    have hm : List.map
        (fun v => v - SDAR_1D.newMu ⟨r, 1, yl, 0, 0, [0, 0]⟩ 0)
        (regsOf (SDAR_1D.k ⟨r, 1, yl, 0, 0, [0, 0]⟩) [0]) = [0] := by
      simp [regsOf, SDAR_1D.newMu]
    rw [hm, dot_singleton_zero]
    simp [SDAR_1D.newMu]
  have hσ : SDAR_1D.newSigma yS bS ⟨r, 1, yl, 0, 0, [0, 0]⟩ 0 [0] = 0 := by
    rw [SDAR_1D.newSigma, hx]
    simp
  have hc : SDAR_1D.newC ⟨r, 1, yl, 0, 0, [0, 0]⟩ 0 [0] = [0, 0] := by
    cases yl <;> simp [SDAR_1D.newC, updC, regsOf, SDAR_1D.newMu]
  have hupd : SDAR_1D.updated yS bS ⟨r, 1, yl, 0, 0, [0, 0]⟩ 0 [0] =
      ⟨r, 1, yl, 0, 0, [0, 0]⟩ := by
    rw [SDAR_1D.updated, hσ, hc]
    simp [SDAR_1D.newMu]
  have hpdf : SDAR_1D.pdf 0 (SDAR_1D.xhat yS bS ⟨r, 1, yl, 0, 0, [0, 0]⟩ 0 [0])
      (SDAR_1D.newSigma yS bS ⟨r, 1, yl, 0, 0, [0, 0]⟩ 0 [0]) = 0 := by
    rw [hσ, SDAR_1D.pdf, if_pos rfl]
  rw [SDAR_1D.update, if_neg (by simp), hupd, hpdf]

/-- Feeding `0` to a freshly constructed order-1 log-loss detector with unit
windows returns zero scores with `0 > 0` flags and reproduces the
construction state, for every solver pair. -/
theorem detect_init_zero (yS bS : List ℝ → ℕ → List ℝ) (r : ℝ) (yl : Bool) :
    ChangeFinder.detect yS bS (ChangeFinder.init r 1 1 1 yl true 0 0) 0 =
      some (ChangeFinder.init r 1 1 1 yl true 0 0,
        ⟨((0:ℝ), (0:ℝ) > 0), ((0:ℝ), (0:ℝ) > 0)⟩) := by
  show ChangeFinder.detect yS bS
      ⟨r, 1, 1, 1, true, 0, 0, [0], [0], ⟨r, 1, yl, 0, 0, [0, 0]⟩, [0], [0],
        ⟨r / 2, 1, yl, 0, 0, [0, 0]⟩⟩ 0 =
    some (⟨r, 1, 1, 1, true, 0, 0, [0], [0], ⟨r, 1, yl, 0, 0, [0, 0]⟩, [0],
        [0], ⟨r / 2, 1, yl, 0, 0, [0, 0]⟩⟩,
      ⟨((0:ℝ), (0:ℝ) > 0), ((0:ℝ), (0:ℝ) > 0)⟩)
  simp only [ChangeFinder.detect, update_init_zero, Option.some_bind]
  simp [ChangeFinder.append, ChangeFinder.smooth, logLoss, update_init_zero]

/-- Claim C1: the dictionary returned by `ChangeFinder.detect` pairs the raw
stage-1 outlier score (the score transform of the stage-1 SDAR update, not
the smoothed window mean) with the flag `outlier > threshold_outlier`, and
the arithmetic mean of the (just updated) change window with the flag
`change > threshold_change`; the two thresholds are fixed at construction
(carried unchanged through `detect`), with default `0`. -/
theorem claim_C1 (yS bS : List ℝ → ℕ → List ℝ) (cf : ChangeFinder) (x : ℝ)
    (st : ChangeFinder × DetectOut) (h : cf.detect yS bS x = some st) :
    st.2.outlier.1 = (if cf.logloss then
        logLoss (SDAR_1D.pdf x (cf.sdar_outlier.xhat yS bS x cf.xs)
          (cf.sdar_outlier.newSigma yS bS x cf.xs))
      else hellinger cf.sdar_outlier.mu cf.sdar_outlier.sigma
        (cf.sdar_outlier.updated yS bS x cf.xs).mu
        (cf.sdar_outlier.updated yS bS x cf.xs).sigma * 100) ∧
    (st.2.outlier.2 ↔ st.2.outlier.1 > cf.threshold_outlier) ∧
    st.2.change.1 = ChangeFinder.smooth st.1.changes ∧
    (st.2.change.2 ↔ st.2.change.1 > cf.threshold_change) ∧
    st.1.threshold_outlier = cf.threshold_outlier ∧
    st.1.threshold_change = cf.threshold_change ∧
    (∀ (r : ℝ) (k T1 T2 : ℕ) (yl lg : Bool),
      (ChangeFinder.initDefault r k T1 T2 yl lg).threshold_outlier = 0 ∧
      (ChangeFinder.initDefault r k T1 T2 yl lg).threshold_change = 0) := by
  rw [ChangeFinder.detect, Option.bind_eq_some] at h
  obtain ⟨r1, hu1, h⟩ := h
  simp only [Option.bind_eq_some] at h
  obtain ⟨r2, hu2, h⟩ := h
  simp only [Option.some.injEq] at h
  subst h
  have hr1 : r1 = (cf.sdar_outlier.updated yS bS x cf.xs,
      SDAR_1D.pdf x (cf.sdar_outlier.xhat yS bS x cf.xs)
        (cf.sdar_outlier.newSigma yS bS x cf.xs)) := by
    rw [SDAR_1D.update] at hu1
    by_cases hlt : cf.xs.length < cf.sdar_outlier.k
    · rw [if_pos hlt] at hu1; cases hu1
    · rw [if_neg hlt] at hu1
      exact (Option.some.inj hu1).symm
  subst hr1
  exact ⟨rfl, Iff.rfl, rfl, Iff.rfl, rfl, rfl,
    fun r k T1 T2 yl lg => ⟨rfl, rfl⟩⟩

theorem claim_C1_witness :
    ChangeFinder.detect zeroSolver zeroSolver
      (ChangeFinder.init (1/2) 1 1 1 true true 0 0) 0 =
      some (ChangeFinder.init (1/2) 1 1 1 true true 0 0,
        ⟨((0:ℝ), (0:ℝ) > 0), ((0:ℝ), (0:ℝ) > 0)⟩) ∧
    ((0:ℝ) = (if (true : Bool) then
        logLoss (SDAR_1D.pdf 0
          (SDAR_1D.xhat zeroSolver zeroSolver ⟨1/2, 1, true, 0, 0, [0, 0]⟩
            0 [0])
          (SDAR_1D.newSigma zeroSolver zeroSolver ⟨1/2, 1, true, 0, 0, [0, 0]⟩
            0 [0]))
      else hellinger 0 0
        (SDAR_1D.updated zeroSolver zeroSolver ⟨1/2, 1, true, 0, 0, [0, 0]⟩
          0 [0]).mu
        (SDAR_1D.updated zeroSolver zeroSolver ⟨1/2, 1, true, 0, 0, [0, 0]⟩
          0 [0]).sigma * 100)) ∧
    (((0:ℝ) > 0) ↔ ((0:ℝ) > 0)) ∧
    ((0:ℝ) = ChangeFinder.smooth [(0:ℝ)]) ∧
    (((0:ℝ) > 0) ↔ ((0:ℝ) > 0)) ∧
    ((0:ℝ) = 0) ∧ ((0:ℝ) = 0) ∧
    ((ChangeFinder.initDefault (1/2) 1 1 1 true true).threshold_outlier = 0 ∧
     (ChangeFinder.initDefault (1/2) 1 1 1 true true).threshold_change = 0) := by
  have hd := detect_init_zero zeroSolver zeroSolver (1/2) true
  have hmain := claim_C1 zeroSolver zeroSolver
    (ChangeFinder.init (1/2) 1 1 1 true true 0 0) 0 _ hd
  exact ⟨hd, hmain.1, hmain.2.1, hmain.2.2.1, hmain.2.2.2.1,
    hmain.2.2.2.2.1, hmain.2.2.2.2.2.1,
    hmain.2.2.2.2.2.2 (1/2) 1 1 1 true true⟩

/-- The Levinson-Durbin recursion at order 1: `a = [c1 / c0]`. -/
theorem aryule_one (c0 c1 : ℝ) : aryule_levinson [c0, c1] 1 = [c1 / c0] := by
  have h : aryule_levinson [c0, c1] 1 = [(c1 - 0) / c0] := rfl
  rw [h, sub_zero]

/-- First step of the C10 trace: updating the fresh stage-1 model with
`x = 2/25` against the zero window gives an exact prediction, variance `0`
and PDF `0`. -/
theorem c10_u1 : SDAR_1D.update aryule_levinson zeroSolver
    ⟨1/2, 1, true, 0, 0, [0, 0]⟩ (2/25) [0] =
    some (⟨1/2, 1, true, 1/25, 0, [1/1250, -1/1250]⟩, 0) := by
  have hmu : SDAR_1D.newMu ⟨(1:ℝ)/2, 1, true, 0, 0, [(0:ℝ), 0]⟩ (2/25) =
      1/25 := by
    norm_num [SDAR_1D.newMu]
  have hc : SDAR_1D.newC ⟨1/2, 1, true, 0, 0, [0, 0]⟩ (2/25) [0] =
      [1/1250, -1/1250] := by
    rw [SDAR_1D.newC, if_pos rfl]
    norm_num [updC, regsOf, SDAR_1D.newMu]
  have hcoef : SDAR_1D.coeffs aryule_levinson zeroSolver
      ⟨1/2, 1, true, 0, 0, [0, 0]⟩ (2/25) [0] = [-1] := by
    rw [SDAR_1D.coeffs, if_pos rfl, hc]
    show aryule_levinson [1/1250, -1/1250] 1 = [-1]
    rw [aryule_one]
    norm_num
  have hx : SDAR_1D.xhat aryule_levinson zeroSolver
      ⟨1/2, 1, true, 0, 0, [0, 0]⟩ (2/25) [0] = 2/25 := by
    rw [SDAR_1D.xhat, hcoef]
    norm_num [regsOf, dot, SDAR_1D.newMu]
  have hσ : SDAR_1D.newSigma aryule_levinson zeroSolver
      ⟨1/2, 1, true, 0, 0, [0, 0]⟩ (2/25) [0] = 0 := by
    rw [SDAR_1D.newSigma, hx]
    norm_num
  have hupd : SDAR_1D.updated aryule_levinson zeroSolver
      ⟨1/2, 1, true, 0, 0, [0, 0]⟩ (2/25) [0] =
      ⟨1/2, 1, true, 1/25, 0, [1/1250, -1/1250]⟩ := by
    rw [SDAR_1D.updated, hσ, hc, hmu]
  have hpdf : SDAR_1D.pdf (2/25)
      (SDAR_1D.xhat aryule_levinson zeroSolver
        ⟨1/2, 1, true, 0, 0, [0, 0]⟩ (2/25) [0])
      (SDAR_1D.newSigma aryule_levinson zeroSolver
        ⟨1/2, 1, true, 0, 0, [0, 0]⟩ (2/25) [0]) = 0 := by
    rw [hσ, SDAR_1D.pdf, if_pos rfl]
  rw [SDAR_1D.update, if_neg (by simp), hupd, hpdf]

/-- First detect call of the C10 trace. -/
theorem c10_d1 : ChangeFinder.detect aryule_levinson zeroSolver
    (ChangeFinder.init (1/2) 1 1 1 true true 0 0) (2/25) =
    some (⟨1/2, 1, 1, 1, true, 0, 0, [2/25], [0],
        ⟨1/2, 1, true, 1/25, 0, [1/1250, -1/1250]⟩, [0], [0],
        ⟨1/4, 1, true, 0, 0, [0, 0]⟩⟩,
      ⟨((0:ℝ), (0:ℝ) > 0), ((0:ℝ), (0:ℝ) > 0)⟩) := by
  show ChangeFinder.detect aryule_levinson zeroSolver
      ⟨1/2, 1, 1, 1, true, 0, 0, [0], [0], ⟨1/2, 1, true, 0, 0, [0, 0]⟩,
        [0], [0], ⟨(1/2)/2, 1, true, 0, 0, [0, 0]⟩⟩ (2/25) = _
  simp only [ChangeFinder.detect, c10_u1, Option.some_bind]
  norm_num [ChangeFinder.append, ChangeFinder.smooth, logLoss,
    update_init_zero]

/-- Second stage-1 update of the C10 trace: the post-update variance is
`2/5625` (strictly between `0` and `1/(2*pi)`), the prediction misses by
`2/75`, and the returned PDF value is `exp(-1)/sqrt(2*pi*(2/5625)) > 1`. -/
theorem c10_u2 : SDAR_1D.update aryule_levinson zeroSolver
    ⟨1/2, 1, true, 1/25, 0, [1/1250, -1/1250]⟩ (2/25) [2/25] =
    some (⟨1/2, 1, true, 3/50, 2/5625, [3/5000, -1/5000]⟩,
      Real.exp (-1) / (Real.sqrt (2 * Real.pi) * Real.sqrt (2/5625))) := by
  have hmu : SDAR_1D.newMu ⟨(1:ℝ)/2, 1, true, 1/25, 0,
      [(1:ℝ)/1250, -1/1250]⟩ (2/25) = 3/50 := by
    norm_num [SDAR_1D.newMu]
  have hc : SDAR_1D.newC ⟨1/2, 1, true, 1/25, 0, [1/1250, -1/1250]⟩
      (2/25) [2/25] = [3/5000, -1/5000] := by
    rw [SDAR_1D.newC, if_pos rfl]
    norm_num [updC, regsOf, SDAR_1D.newMu]
  have hcoef : SDAR_1D.coeffs aryule_levinson zeroSolver
      ⟨1/2, 1, true, 1/25, 0, [1/1250, -1/1250]⟩ (2/25) [2/25] = [-(1/3)] := by
    rw [SDAR_1D.coeffs, if_pos rfl, hc]
    show aryule_levinson [3/5000, -1/5000] 1 = [-(1/3)]
    rw [aryule_one]
    norm_num
  have hx : SDAR_1D.xhat aryule_levinson zeroSolver
      ⟨1/2, 1, true, 1/25, 0, [1/1250, -1/1250]⟩ (2/25) [2/25] = 4/75 := by
    rw [SDAR_1D.xhat, hcoef]
    norm_num [regsOf, dot, SDAR_1D.newMu]
  have hσ : SDAR_1D.newSigma aryule_levinson zeroSolver
      ⟨1/2, 1, true, 1/25, 0, [1/1250, -1/1250]⟩ (2/25) [2/25] = 2/5625 := by
    rw [SDAR_1D.newSigma, hx]
    norm_num
  have hupd : SDAR_1D.updated aryule_levinson zeroSolver
      ⟨1/2, 1, true, 1/25, 0, [1/1250, -1/1250]⟩ (2/25) [2/25] =
      ⟨1/2, 1, true, 3/50, 2/5625, [3/5000, -1/5000]⟩ := by
    rw [SDAR_1D.updated, hσ, hc, hmu]
  have hpdf : SDAR_1D.pdf (2/25)
      (SDAR_1D.xhat aryule_levinson zeroSolver
        ⟨1/2, 1, true, 1/25, 0, [1/1250, -1/1250]⟩ (2/25) [2/25])
      (SDAR_1D.newSigma aryule_levinson zeroSolver
        ⟨1/2, 1, true, 1/25, 0, [1/1250, -1/1250]⟩ (2/25) [2/25]) =
      Real.exp (-1) / (Real.sqrt (2 * Real.pi) * Real.sqrt (2/5625)) := by
    rw [hσ, hx, SDAR_1D.pdf, if_neg (by norm_num)]
    norm_num
  rw [SDAR_1D.update, if_neg (by simp), hupd, hpdf]

/-- A successful `detect` stores the stage-1 post-update SDAR state and
reports the raw stage-1 score. -/
theorem detect_stage1 (yS bS : List ℝ → ℕ → List ℝ) (cf : ChangeFinder)
    (x : ℝ) (st : ChangeFinder × DetectOut)
    (h : cf.detect yS bS x = some st) :
    st.1.sdar_outlier = cf.sdar_outlier.updated yS bS x cf.xs ∧
    st.2.outlier.1 = (if cf.logloss then
        logLoss (SDAR_1D.pdf x (cf.sdar_outlier.xhat yS bS x cf.xs)
          (cf.sdar_outlier.newSigma yS bS x cf.xs))
      else hellinger cf.sdar_outlier.mu cf.sdar_outlier.sigma
        (cf.sdar_outlier.updated yS bS x cf.xs).mu
        (cf.sdar_outlier.updated yS bS x cf.xs).sigma * 100) := by
  rw [ChangeFinder.detect, Option.bind_eq_some] at h
  obtain ⟨r1, hu1, h⟩ := h
  simp only [Option.bind_eq_some] at h
  obtain ⟨r2, hu2, h⟩ := h
  simp only [Option.some.injEq] at h
  subst h
  have hr1 : r1 = (cf.sdar_outlier.updated yS bS x cf.xs,
      SDAR_1D.pdf x (cf.sdar_outlier.xhat yS bS x cf.xs)
        (cf.sdar_outlier.newSigma yS bS x cf.xs)) := by
    rw [SDAR_1D.update] at hu1
    by_cases hlt : cf.xs.length < cf.sdar_outlier.k
    · rw [if_pos hlt] at hu1; cases hu1
    · rw [if_neg hlt] at hu1
      exact (Option.some.inj hu1).symm
  subst hr1
  exact ⟨rfl, rfl⟩

/-- Claim C10: in log-loss mode the reported outlier score can be strictly
negative.  Concretely, for the detector `ChangeFinder.init (1/2) 1 1 1 true
true 0 0` with the spec's Levinson-Durbin solver, feeding `2/25` twice
drives the stage-1 post-update variance to `2/5625` (strictly between `0`
and `1/(2*pi)`) with the prediction close to the input, so the returned PDF
exceeds `1` and `detect` reports the strictly negative outlier score
`-log(PDF)`. -/
theorem claim_C10 :
    ∃ st1 st2 : ChangeFinder × DetectOut,
      ChangeFinder.detect aryule_levinson zeroSolver
        (ChangeFinder.init (1/2) 1 1 1 true true 0 0) (2/25) = some st1 ∧
      ChangeFinder.detect aryule_levinson zeroSolver st1.1 (2/25) =
        some st2 ∧
      st2.1.sdar_outlier.sigma = 2/5625 ∧
      0 < st2.1.sdar_outlier.sigma ∧
      st2.1.sdar_outlier.sigma < 1 / (2 * Real.pi) ∧
      st2.2.outlier.1 < 0 := by
  obtain ⟨st2, hst2⟩ : ∃ st2, ChangeFinder.detect aryule_levinson zeroSolver
      ⟨1/2, 1, 1, 1, true, 0, 0, [2/25], [0],
        ⟨1/2, 1, true, 1/25, 0, [1/1250, -1/1250]⟩, [0], [0],
        ⟨1/4, 1, true, 0, 0, [0, 0]⟩⟩ (2/25) = some st2 := ⟨_, rfl⟩
  obtain ⟨hsd, hout⟩ := detect_stage1 aryule_levinson zeroSolver _ (2/25)
    st2 hst2
  have hu2 := c10_u2
  rw [SDAR_1D.update, if_neg (by simp)] at hu2
  have hpair := Option.some.inj hu2
  have hupd2 : SDAR_1D.updated aryule_levinson zeroSolver
      ⟨1/2, 1, true, 1/25, 0, [1/1250, -1/1250]⟩ (2/25) [2/25] =
      ⟨1/2, 1, true, 3/50, 2/5625, [3/5000, -1/5000]⟩ :=
    congrArg Prod.fst hpair
  have hpdf2 : SDAR_1D.pdf (2/25)
      (SDAR_1D.xhat aryule_levinson zeroSolver
        ⟨1/2, 1, true, 1/25, 0, [1/1250, -1/1250]⟩ (2/25) [2/25])
      (SDAR_1D.newSigma aryule_levinson zeroSolver
        ⟨1/2, 1, true, 1/25, 0, [1/1250, -1/1250]⟩ (2/25) [2/25]) =
      Real.exp (-1) / (Real.sqrt (2 * Real.pi) * Real.sqrt (2/5625)) :=
    congrArg Prod.snd hpair
  have hsig : st2.1.sdar_outlier.sigma = 2/5625 := by
    rw [show st2.1.sdar_outlier.sigma =
      (SDAR_1D.updated aryule_levinson zeroSolver
        ⟨1/2, 1, true, 1/25, 0, [1/1250, -1/1250]⟩ (2/25) [2/25]).sigma
      from congrArg SDAR_1D.sigma hsd, hupd2]
  have hp1 : (0:ℝ) < Real.exp (-1) /
      (Real.sqrt (2 * Real.pi) * Real.sqrt (2/5625)) := by
    have h1 : (0:ℝ) < Real.sqrt (2 * Real.pi) :=
      Real.sqrt_pos.2 Real.two_pi_pos
    have h2 : (0:ℝ) < Real.sqrt (2/5625) := Real.sqrt_pos.2 (by norm_num)
    positivity
  have hgt1 : (1:ℝ) < Real.exp (-1) /
      (Real.sqrt (2 * Real.pi) * Real.sqrt (2/5625)) := by
    rw [← Real.sqrt_mul (le_of_lt Real.two_pi_pos),
      one_lt_div (Real.sqrt_pos.2 (by positivity)),
      Real.sqrt_lt' (Real.exp_pos _)]
    have hexp2 : Real.exp (-1) ^ 2 = (Real.exp 2)⁻¹ := by
      rw [sq, ← Real.exp_add]
      norm_num
      rw [Real.exp_neg]
    have he2 : Real.exp 2 < 7.39 := by
      have h1 := Real.exp_one_lt_d9
      have h2 : Real.exp 2 = Real.exp 1 * Real.exp 1 := by
        rw [← Real.exp_add]; norm_num
      rw [h2]
      nlinarith [Real.exp_pos 1]
    have hinv : (7.39:ℝ)⁻¹ < (Real.exp 2)⁻¹ :=
      (inv_lt_inv₀ (by norm_num) (Real.exp_pos 2)).2 he2
    have hlhs : 2 * Real.pi * (2/5625) < (7.39:ℝ)⁻¹ := by
      nlinarith [Real.pi_lt_d2, Real.pi_pos]
    rw [hexp2]
    linarith
  have hscore : logLoss (Real.exp (-1) /
      (Real.sqrt (2 * Real.pi) * Real.sqrt (2/5625))) < 0 := by
    rw [logLoss, if_neg (ne_of_gt hp1)]
    have := Real.log_pos hgt1
    linarith
  have houtval : st2.2.outlier.1 = logLoss (Real.exp (-1) /
      (Real.sqrt (2 * Real.pi) * Real.sqrt (2/5625))) := by
    rw [hout, if_pos rfl]
    show logLoss (SDAR_1D.pdf (2/25)
      (SDAR_1D.xhat aryule_levinson zeroSolver
        ⟨1/2, 1, true, 1/25, 0, [1/1250, -1/1250]⟩ (2/25) [2/25])
      (SDAR_1D.newSigma aryule_levinson zeroSolver
        ⟨1/2, 1, true, 1/25, 0, [1/1250, -1/1250]⟩ (2/25) [2/25])) = _
    rw [hpdf2]
  refine ⟨(⟨1/2, 1, 1, 1, true, 0, 0, [2/25], [0],
      ⟨1/2, 1, true, 1/25, 0, [1/1250, -1/1250]⟩, [0], [0],
      ⟨1/4, 1, true, 0, 0, [0, 0]⟩⟩,
    ⟨((0:ℝ), (0:ℝ) > 0), ((0:ℝ), (0:ℝ) > 0)⟩), st2, c10_d1, hst2, hsig,
    ?_, ?_, ?_⟩
  · rw [hsig]; norm_num
  · rw [hsig, div_lt_div_iff₀ (by norm_num) Real.two_pi_pos]
    nlinarith [Real.pi_lt_d2, Real.pi_pos]
  · rw [houtval]
    exact hscore
